/-
Verification of the windowed, chunk-spanning error-aggregation engine of the
BDT repository (Docker/app/src/rules.py), shallowly embedded in Lean 4.

The embedding models:
  * `Row`       — one log row (timestamp, severity level, categorical attribute);
  * `Alert`     — the alert dataclass (Docker/app/src/alert.py);
  * `check`     — the shared `ErrorsRule.check` driver, parameterised by the
                  abstract `_group` / `_merge_buffer` / `_build_alert` methods,
                  with the mutable `self.buffer` made an explicit argument and
                  result;
  * `groupByTime`, `mergeBufferTime`, `buildAlertTime`
                  — the `ErrorsPerTimeRule` strategy;
  * `groupByTimeAttr`, `mergeBufferAttr`, `buildAlertAttr`
                  — the `ErrorsPerTimeAndAttributeRule` strategy.

pandas `Series` values indexed by time buckets (resp. (bucket, attribute)
pairs) are modelled as association lists `List (κ × Nat)`.  Timestamps are
seconds as `Nat`; `pd.Grouper(freq)` flooring is `bucketOf`.  `index.min()` /
`index.max()` over a possibly empty index are modelled as `Option Nat`
(`listMin` / `listMax`); pandas returns `NaT` on an empty index and
`NaT == t` / `NaT < t` / `t < NaT` are all false, which the `none` branches
reproduce.  `Series.add(other, fill_value=0)` is `addFill`: the index-sorted
union of the two key sets with pointwise sums, missing keys counted as 0.
The attribute variant sorts its merged keys by the bucket component (the
only ordering the buffering algorithm inspects).
-/
import Mathlib

set_option linter.unusedVariables false

namespace BDT

/-- One log row: a timestamp (seconds), the `severity` column value and the
categorical attribute column value (e.g. `bundle_id`). -/
structure Row where
  ts : Nat
  level : String
  attr : String
deriving DecidableEq, Repr

/-- The `Alert` dataclass of Docker/app/src/alert.py. -/
structure Alert where
  ruleName : String
  message : String
  timestamp : Nat
deriving DecidableEq, Repr

/-- Value of an association list at a key, missing keys giving 0
(a pandas `Series` read with `fill_value=0` alignment). -/
def lookup0 {κ : Type} [DecidableEq κ] : List (κ × Nat) → κ → Nat
  | [], _ => 0
  | (k2, v) :: t, k => if k = k2 then v else lookup0 t k

/-- Insert a key in front of the first entry whose bucket component is not
smaller (stable insertion). -/
def insertByBucket {κ : Type} (bucket : κ → Nat) (x : κ) : List κ → List κ
  | [] => [x]
  | y :: t => if bucket x ≤ bucket y then x :: y :: t else y :: insertByBucket bucket x t

/-- Stable insertion sort of keys by ascending bucket component, modelling the
ascending index order of a pandas groupby / aligned index. -/
def sortByBucket {κ : Type} (bucket : κ → Nat) (l : List κ) : List κ :=
  l.foldr (insertByBucket bucket) []

/-- `counts.add(buffer, fill_value=0)`: pointwise sum over the union of the
key sets, missing keys counted as zero, keys in ascending bucket order. -/
def addFill {κ : Type} [DecidableEq κ] (bucket : κ → Nat) (a b : List (κ × Nat)) :
    List (κ × Nat) :=
  (sortByBucket bucket ((a.map Prod.fst ++ b.map Prod.fst).dedup)).map
    (fun k => (k, lookup0 a k + lookup0 b k))

/-- `index.min()` of a possibly empty index (`none` models pandas `NaT`). -/
def listMin : List Nat → Option Nat
  | [] => none
  | x :: t =>
    match listMin t with
    | none => some x
    | some m => some (min x m)

/-- `index.max()` of a possibly empty index (`none` models pandas `NaT`). -/
def listMax : List Nat → Option Nat
  | [] => none
  | x :: t =>
    match listMax t with
    | none => some x
    | some m => some (max x m)

/-- `pd.Grouper(key=date_col, freq=freq)`: floor a timestamp to its bucket
start. -/
def bucketOf (freq ts : Nat) : Nat := freq * (ts / freq)

/-- `df[df[self.error_col] == self.error_val]`: keep the rows whose severity
equals the configured error level. -/
def errorFilter (errorVal : String) (batch : List Row) : List Row :=
  batch.filter (fun r => r.level = errorVal)

/-- `ErrorsPerTimeRule._group`: group the error rows by time bucket and count
them (`groupby(pd.Grouper(...)).size()`), bucket keys ascending. -/
def groupByTime (freq : Nat) (rows : List Row) : List (Nat × Nat) :=
  (sortByBucket id ((rows.map (fun r => bucketOf freq r.ts)).dedup)).map
    (fun b => (b, (rows.filter (fun r => bucketOf freq r.ts = b)).length))

/-- `ErrorsPerTimeAndAttributeRule._group`: group the error rows by
(time bucket, attribute value) and count them, keys in ascending bucket
order. -/
def groupByTimeAttr (freq : Nat) (rows : List Row) : List ((Nat × String) × Nat) :=
  (sortByBucket Prod.fst ((rows.map (fun r => (bucketOf freq r.ts, r.attr))).dedup)).map
    (fun k => (k, (rows.filter (fun r => bucketOf freq r.ts = k.1 ∧ r.attr = k.2)).length))

/-- The merge step of `ErrorsPerTimeRule._merge_buffer` (lines 92–99): if the
buffer is non-empty and its first index entry equals the minimum index of the
new counts, add the two series with `fill_value=0`; otherwise concatenate the
buffer in front of the counts.  An empty new index has `min() = NaT` (here
`none`), which compares unequal to every buffer timestamp, hence
concatenates. -/
def mergedTime (buffer counts : List (Nat × Nat)) : List (Nat × Nat) :=
  match buffer with
  | [] => counts
  | (bufferTs, _) :: _ =>
    if listMin (counts.map Prod.fst) = some bufferTs then addFill id counts buffer
    else buffer ++ counts

/-- `ErrorsPerTimeRule._merge_buffer` (lines 90–108): merge with the buffer,
then re-buffer the entries at the maximum index (`counts[counts.index ==
last_ts]`) and finalize the entries strictly before it (`counts[counts.index <
last_ts]`).  Returns (new buffer, finalized).  On an empty merged series the
maximum is `NaT` and both comparisons are everywhere false. -/
def mergeBufferTime (buffer counts : List (Nat × Nat)) :
    List (Nat × Nat) × List (Nat × Nat) :=
  match listMax ((mergedTime buffer counts).map Prod.fst) with
  | none => ([], [])
  | some lastTs =>
    ((mergedTime buffer counts).filter (fun p => p.1 = lastTs),
     (mergedTime buffer counts).filter (fun p => p.1 < lastTs))

/-- The merge step of `ErrorsPerTimeAndAttributeRule._merge_buffer`
(lines 134–141), comparing the first level-0 (hour bucket) value of the buffer
with the minimum level-0 value of the new counts. -/
def mergedAttr (buffer counts : List ((Nat × String) × Nat)) : List ((Nat × String) × Nat) :=
  match buffer with
  | [] => counts
  | ((bufferHour, _), _) :: _ =>
    if listMin (counts.map (fun p => p.1.1)) = some bufferHour then addFill Prod.fst counts buffer
    else buffer ++ counts

/-- `ErrorsPerTimeAndAttributeRule._merge_buffer` (lines 133–152): merge, then
re-buffer every entry whose level-0 (hour) component equals the maximum hour
and finalize the entries with a strictly smaller hour. -/
def mergeBufferAttr (buffer counts : List ((Nat × String) × Nat)) :
    List ((Nat × String) × Nat) × List ((Nat × String) × Nat) :=
  match listMax ((mergedAttr buffer counts).map (fun p => p.1.1)) with
  | none => ([], [])
  | some lastHour =>
    ((mergedAttr buffer counts).filter (fun p => p.1.1 = lastHour),
     (mergedAttr buffer counts).filter (fun p => p.1.1 < lastHour))

/-- `ErrorsPerTimeRule._build_alert`. -/
def buildAlertTime (key count : Nat) : Alert :=
  { ruleName := "errors_per_time",
    message := "Detected " ++ toString count ++ " fatal errors at " ++ toString key,
    timestamp := key }

/-- `ErrorsPerTimeAndAttributeRule._build_alert`. -/
def buildAlertAttr (key : Nat × String) (count : Nat) : Alert :=
  { ruleName := "errors_per_time_and_attribute",
    message := "Attribute \x27" ++ key.2 ++ "\x27 has " ++ toString count ++
      " errors at " ++ toString key.1,
    timestamp := key.1 }

/-- The `counts` series handed to `_merge_buffer` by `ErrorsRule.check`
(lines 39–47): the old buffer on the flush path (`df.empty`), otherwise the
grouped error rows of the batch. -/
def countsOf {κ : Type} (errorVal : String) (group : List Row → List (κ × Nat))
    (buffer : List (κ × Nat)) (batch : List Row) : List (κ × Nat) :=
  if batch.isEmpty then buffer else group (errorFilter errorVal batch)

/-- The value of `self.buffer` at the moment `_merge_buffer` runs: on the
flush path `check` has just reassigned `self.buffer = pd.Series()` (line 42),
otherwise the buffer is untouched. -/
def bufferArgOf {κ : Type} (buffer : List (κ × Nat)) (batch : List Row) : List (κ × Nat) :=
  if batch.isEmpty then [] else buffer

/-- Threshold filtering and alert construction of `ErrorsRule.check`
(lines 52–58): `finalized[finalized > threshold]` mapped through
`_build_alert`. -/
def alertsFrom {κ : Type} (threshold : Nat) (build : κ → Nat → Alert)
    (finalized : List (κ × Nat)) : List Alert :=
  (finalized.filter (fun p => threshold < p.2)).map (fun p => build p.1 p.2)

/-- `ErrorsRule.check` (lines 25–59) with the strategy methods as parameters
and `self.buffer` threaded explicitly: returns (buffer after the call, emitted
alerts). -/
def check {κ : Type} (threshold : Nat) (errorVal : String)
    (group : List Row → List (κ × Nat))
    (mergeB : List (κ × Nat) → List (κ × Nat) → List (κ × Nat) × List (κ × Nat))
    (build : κ → Nat → Alert)
    (buffer : List (κ × Nat)) (batch : List Row) : List (κ × Nat) × List Alert :=
  if batch.isEmpty && buffer.isEmpty then (buffer, [])
  else
    let r := mergeB (bufferArgOf buffer batch) (countsOf errorVal group buffer batch)
    (r.1, alertsFrom threshold build r.2)

/-- `ErrorsPerTimeRule` instantiation of `check`. -/
def checkTime (threshold : Nat) (errorVal : String) (freq : Nat)
    (buffer : List (Nat × Nat)) (batch : List Row) : List (Nat × Nat) × List Alert :=
  check threshold errorVal (groupByTime freq) mergeBufferTime buildAlertTime buffer batch

/-- `ErrorsPerTimeAndAttributeRule` instantiation of `check`. -/
def checkAttr (threshold : Nat) (errorVal : String) (freq : Nat)
    (buffer : List ((Nat × String) × Nat)) (batch : List Row) :
    List ((Nat × String) × Nat) × List Alert :=
  check threshold errorVal (groupByTimeAttr freq) mergeBufferAttr buildAlertAttr buffer batch

/-- The merged counts of one `checkTime` call, as computed inside
`_merge_buffer` before the re-buffer / finalize split. -/
def mergedOfTime (errorVal : String) (freq : Nat) (buffer : List (Nat × Nat))
    (batch : List Row) : List (Nat × Nat) :=
  mergedTime (bufferArgOf buffer batch) (countsOf errorVal (groupByTime freq) buffer batch)

/-- The finalized windows of one `checkTime` call (empty when the call
short-circuits on an empty batch with an empty buffer). -/
def finalizedOfTime (errorVal : String) (freq : Nat) (buffer : List (Nat × Nat))
    (batch : List Row) : List (Nat × Nat) :=
  if batch.isEmpty && buffer.isEmpty then []
  else (mergeBufferTime (bufferArgOf buffer batch)
    (countsOf errorVal (groupByTime freq) buffer batch)).2

/-- The merged counts of one `checkAttr` call. -/
def mergedOfAttr (errorVal : String) (freq : Nat) (buffer : List ((Nat × String) × Nat))
    (batch : List Row) : List ((Nat × String) × Nat) :=
  mergedAttr (bufferArgOf buffer batch) (countsOf errorVal (groupByTimeAttr freq) buffer batch)

/-- Two error rows in the same hour bucket (3600 s) with two different
attribute values: the input of spec Scenario B. -/
def scenarioB : List Row := [⟨3605, "Error", "app1"⟩, ⟨3700, "Error", "app2"⟩]

/-- A batch with error rows in two distinct one-minute buckets (0 and 60). -/
def demoBatch : List Row := [⟨0, "Error", "a"⟩, ⟨61, "Error", "a"⟩]

/-- A non-empty batch containing no row at the error severity. -/
def demoNoErrorBatch : List Row := [⟨70, "Info", "x"⟩]

/-- Merged (bucket, attribute) counts with two attribute values tied at the
latest bucket 2. -/
def demoCountsAttr : List ((Nat × String) × Nat) := [((1, "a"), 1), ((2, "b"), 2), ((2, "c"), 3)]

/-! ### Basic lemmas about the list-level building blocks -/

theorem mem_insertByBucket {κ : Type} (bucket : κ → Nat) (y x : κ) :
    ∀ (l : List κ), x ∈ insertByBucket bucket y l ↔ x = y ∨ x ∈ l
  | [] => by simp [insertByBucket]
  | z :: t => by
    simp only [insertByBucket]
    by_cases h : bucket y ≤ bucket z
    · simp [h, List.mem_cons]
    · simp only [h, if_false, List.mem_cons, mem_insertByBucket bucket y x t]
      tauto

theorem mem_sortByBucket {κ : Type} (bucket : κ → Nat) (x : κ) :
    ∀ (l : List κ), x ∈ sortByBucket bucket l ↔ x ∈ l
  | [] => Iff.rfl
  | z :: t => by
    show x ∈ insertByBucket bucket z (sortByBucket bucket t) ↔ _
    rw [mem_insertByBucket, mem_sortByBucket bucket x t, List.mem_cons]

theorem lookup0_map_self {κ : Type} [DecidableEq κ] (f : κ → Nat) :
    ∀ (ks : List κ) (k : κ), k ∈ ks → lookup0 (ks.map fun x => (x, f x)) k = f k
  | [], k, h => absurd h (List.not_mem_nil k)
  | x :: t, k, h => by
    simp only [List.map_cons, lookup0]
    by_cases hk : k = x
    · simp [hk]
    · rw [if_neg hk]
      exact lookup0_map_self f t k ((List.mem_cons.mp h).resolve_left hk)

theorem lookup0_eq_zero {κ : Type} [DecidableEq κ] :
    ∀ (l : List (κ × Nat)) (k : κ), k ∉ l.map Prod.fst → lookup0 l k = 0
  | [], _, _ => rfl
  | (k2, v) :: t, k, h => by
    simp only [List.map_cons, List.mem_cons] at h
    push_neg at h
    simp only [lookup0, if_neg h.1]
    exact lookup0_eq_zero t k h.2

theorem lookup0_addFill {κ : Type} [DecidableEq κ] (bucket : κ → Nat)
    (a b : List (κ × Nat)) (k : κ) :
    lookup0 (addFill bucket a b) k = lookup0 a k + lookup0 b k := by
  unfold addFill
  by_cases h : k ∈ sortByBucket bucket ((a.map Prod.fst ++ b.map Prod.fst).dedup)
  · exact lookup0_map_self _ _ k h
  · have hkeys : k ∉ (List.map (fun x => (x, lookup0 a x + lookup0 b x))
        (sortByBucket bucket ((a.map Prod.fst ++ b.map Prod.fst).dedup))).map Prod.fst := by
      simpa [List.map_map, Function.comp] using h
    rw [lookup0_eq_zero _ k hkeys]
    rw [mem_sortByBucket, List.mem_dedup, List.mem_append] at h
    push_neg at h
    rw [lookup0_eq_zero a k h.1, lookup0_eq_zero b k h.2]

theorem listMax_mem : ∀ {l : List Nat} {m : Nat}, listMax l = some m → m ∈ l
  | [], m, h => by simp [listMax] at h
  | x :: t, m, h => by
    rw [listMax] at h
    cases ht : listMax t with
    | none =>
      rw [ht] at h
      injection h with h
      simp [← h]
    | some m2 =>
      rw [ht] at h
      injection h with h
      rcases max_choice x m2 with hc | hc
      · rw [← h, hc]
        exact List.mem_cons_self x t
      · rw [← h, hc]
        exact List.mem_cons_of_mem x (listMax_mem ht)

theorem listMax_const : ∀ {l : List Nat} {b : Nat}, l ≠ [] → (∀ x ∈ l, x = b) →
    listMax l = some b
  | [], _, hne, _ => absurd rfl hne
  | x :: t, b, _, hall => by
    have hx : x = b := hall x (List.mem_cons_self x t)
    rw [listMax]
    cases ht : listMax t with
    | none => rw [hx]
    | some m =>
      have hm : m = b := hall m (List.mem_cons_of_mem x (listMax_mem ht))
      rw [hx, hm]
      simp

theorem isEmpty_eq_false_of_ne {α : Type} {l : List α} (h : l ≠ []) :
    l.isEmpty = false := by
  cases l with
  | nil => exact absurd rfl h
  | cons x t => rfl

/-! ### Unfolding lemmas for `check` and the merge functions -/

theorem check_nil {κ : Type} (threshold : Nat) (errorVal : String)
    (group : List Row → List (κ × Nat))
    (mergeB : List (κ × Nat) → List (κ × Nat) → List (κ × Nat) × List (κ × Nat))
    (build : κ → Nat → Alert) (buffer : List (κ × Nat)) (batch : List Row)
    (h : (batch.isEmpty && buffer.isEmpty) = true) :
    check threshold errorVal group mergeB build buffer batch = (buffer, []) := by
  unfold check
  rw [if_pos h]

theorem check_spec {κ : Type} (threshold : Nat) (errorVal : String)
    (group : List Row → List (κ × Nat))
    (mergeB : List (κ × Nat) → List (κ × Nat) → List (κ × Nat) × List (κ × Nat))
    (build : κ → Nat → Alert) (buffer : List (κ × Nat)) (batch : List Row)
    (h : (batch.isEmpty && buffer.isEmpty) = false) :
    check threshold errorVal group mergeB build buffer batch =
      ((mergeB (bufferArgOf buffer batch) (countsOf errorVal group buffer batch)).1,
       alertsFrom threshold build
         (mergeB (bufferArgOf buffer batch) (countsOf errorVal group buffer batch)).2) := by
  unfold check
  rw [if_neg (by simp [h])]

theorem mergeBufferTime_eq (buffer counts : List (Nat × Nat)) (last : Nat)
    (h : listMax ((mergedTime buffer counts).map Prod.fst) = some last) :
    mergeBufferTime buffer counts =
      ((mergedTime buffer counts).filter (fun p => p.1 = last),
       (mergedTime buffer counts).filter (fun p => p.1 < last)) := by
  unfold mergeBufferTime
  rw [h]

theorem mergeBufferAttr_eq (buffer counts : List ((Nat × String) × Nat)) (last : Nat)
    (h : listMax ((mergedAttr buffer counts).map (fun p => p.1.1)) = some last) :
    mergeBufferAttr buffer counts =
      ((mergedAttr buffer counts).filter (fun p => p.1.1 = last),
       (mergedAttr buffer counts).filter (fun p => p.1.1 < last)) := by
  unfold mergeBufferAttr
  rw [h]

theorem mergeBufferTime_of_const (buffer counts : List (Nat × Nat))
    (x : Nat × Nat) (rest : List (Nat × Nat))
    (hm : mergedTime buffer counts = x :: rest)
    (hall : ∀ p ∈ x :: rest, p.1 = x.1) :
    mergeBufferTime buffer counts = (x :: rest, []) := by
  have hmax : listMax ((x :: rest).map Prod.fst) = some x.1 := by
    refine listMax_const (by simp) ?_
    intro v hv
    rw [List.mem_map] at hv
    obtain ⟨p, hp, rfl⟩ := hv
    exact hall p hp
  rw [mergeBufferTime_eq buffer counts x.1 (by rw [hm]; exact hmax), hm]
  rw [List.filter_eq_self.mpr (fun p hp => decide_eq_true (hall p hp))]
  rw [List.filter_eq_nil_iff.mpr
    (fun p hp h => absurd (of_decide_eq_true h) (by rw [hall p hp]; exact lt_irrefl _))]

theorem mergeBufferAttr_of_const (buffer counts : List ((Nat × String) × Nat))
    (x : (Nat × String) × Nat) (rest : List ((Nat × String) × Nat))
    (hm : mergedAttr buffer counts = x :: rest)
    (hall : ∀ p ∈ x :: rest, p.1.1 = x.1.1) :
    mergeBufferAttr buffer counts = (x :: rest, []) := by
  have hmax : listMax ((x :: rest).map (fun p => p.1.1)) = some x.1.1 := by
    refine listMax_const (by simp) ?_
    intro v hv
    rw [List.mem_map] at hv
    obtain ⟨p, hp, rfl⟩ := hv
    exact hall p hp
  rw [mergeBufferAttr_eq buffer counts x.1.1 (by rw [hm]; exact hmax), hm]
  rw [List.filter_eq_self.mpr (fun p hp => decide_eq_true (hall p hp))]
  rw [List.filter_eq_nil_iff.mpr
    (fun p hp h => absurd (of_decide_eq_true h) (by rw [hall p hp]; exact lt_irrefl _))]

theorem mergedTime_buffer_nil (counts : List (Nat × Nat)) :
    mergedTime [] counts = counts := rfl

theorem mergedTime_counts_nil (buffer : List (Nat × Nat)) :
    mergedTime buffer [] = buffer := by
  cases buffer with
  | nil => rfl
  | cons x t =>
    obtain ⟨a, v⟩ := x
    simp [mergedTime, listMin]

theorem mergedAttr_counts_nil (buffer : List ((Nat × String) × Nat)) :
    mergedAttr buffer [] = buffer := by
  cases buffer with
  | nil => rfl
  | cons x t =>
    obtain ⟨⟨a, s⟩, v⟩ := x
    simp [mergedAttr, listMin]

theorem mergedTime_cons_min_eq (b c : Nat) (rest counts : List (Nat × Nat))
    (hmin : listMin (counts.map Prod.fst) = some b) :
    mergedTime ((b, c) :: rest) counts = addFill id counts ((b, c) :: rest) := by
  simp only [mergedTime]
  rw [if_pos hmin]

theorem mergedTime_cons_min_ne (b c : Nat) (rest counts : List (Nat × Nat))
    (hmin : listMin (counts.map Prod.fst) ≠ some b) :
    mergedTime ((b, c) :: rest) counts = ((b, c) :: rest) ++ counts := by
  simp only [mergedTime]
  rw [if_neg hmin]

theorem mergedAttr_cons_min_eq (bh : Nat) (bs : String) (cA : Nat)
    (restA countsA : List ((Nat × String) × Nat))
    (hmin : listMin (countsA.map (fun p => p.1.1)) = some bh) :
    mergedAttr (((bh, bs), cA) :: restA) countsA =
      addFill Prod.fst countsA (((bh, bs), cA) :: restA) := by
  simp only [mergedAttr]
  rw [if_pos hmin]

theorem mergedAttr_cons_min_ne (bh : Nat) (bs : String) (cA : Nat)
    (restA countsA : List ((Nat × String) × Nat))
    (hmin : listMin (countsA.map (fun p => p.1.1)) ≠ some bh) :
    mergedAttr (((bh, bs), cA) :: restA) countsA = (((bh, bs), cA) :: restA) ++ countsA := by
  simp only [mergedAttr]
  rw [if_neg hmin]

theorem eq_nil_of_isEmpty {α : Type} {l : List α} (h : l.isEmpty = true) : l = [] := by
  cases l with
  | nil => rfl
  | cons x t => simp [List.isEmpty] at h

theorem mem_alertsFrom_time (threshold : Nat) (F : List (Nat × Nat)) (k : Nat) :
    (∃ a ∈ alertsFrom threshold buildAlertTime F, a.timestamp = k) ↔
    ∃ c, (k, c) ∈ F ∧ threshold < c := by
  constructor
  · rintro ⟨a, ha, hts⟩
    unfold alertsFrom at ha
    rw [List.mem_map] at ha
    obtain ⟨p, hp, rfl⟩ := ha
    rw [List.mem_filter] at hp
    have hk : p.1 = k := hts
    exact ⟨p.2, by rw [← hk]; exact hp.1, of_decide_eq_true hp.2⟩
  · rintro ⟨c, hc, hthr⟩
    refine ⟨buildAlertTime k c, ?_, rfl⟩
    unfold alertsFrom
    rw [List.mem_map]
    exact ⟨(k, c), List.mem_filter.mpr ⟨hc, decide_eq_true hthr⟩, rfl⟩

theorem mergeBufferTime_fst_bucket (buffer counts : List (Nat × Nat)) (m : Nat)
    (hm : listMax ((mergedTime buffer counts).map Prod.fst) = some m) :
    ∀ p ∈ (mergeBufferTime buffer counts).1, p.1 = m := by
  intro p hp
  rw [mergeBufferTime_eq buffer counts m hm] at hp
  have hp2 : p ∈ List.filter (fun q => decide (q.1 = m)) (mergedTime buffer counts) := hp
  rw [List.mem_filter] at hp2
  exact of_decide_eq_true hp2.2

theorem mergeBufferAttr_fst_bucket (buffer counts : List ((Nat × String) × Nat)) (m : Nat)
    (hm : listMax ((mergedAttr buffer counts).map (fun p => p.1.1)) = some m) :
    ∀ p ∈ (mergeBufferAttr buffer counts).1, p.1.1 = m := by
  intro p hp
  rw [mergeBufferAttr_eq buffer counts m hm] at hp
  have hp2 : p ∈ List.filter (fun q => decide (q.1.1 = m)) (mergedAttr buffer counts) := hp
  rw [List.mem_filter] at hp2
  exact of_decide_eq_true hp2.2

/-! ### The claims -/

/-- Claim C8: a call of `check` with an empty batch and an empty pending
buffer returns no alerts and keeps the buffer empty (true no-op), for both
rule variants. -/
theorem true_noop_on_empty (threshold : Nat) (errorVal : String) (freq : Nat) :
    checkTime threshold errorVal freq [] [] = ([], []) ∧
    checkAttr threshold errorVal freq [] [] = ([], []) :=
  ⟨rfl, rfl⟩

/-- Claim C1 (failing input for the flush-completeness claim): calling
`check` with an empty batch while the buffer holds the single bucket 120 with
count 3 at threshold 0 emits no alert and leaves the buffer exactly as it
was, because `_merge_buffer` re-buffers the whole flushed content — the
buffered bucket is not finalized and the buffer is not empty after the
call. -/
theorem flush_rebuffers_pending_window :
    checkTime 0 "Error" 60 [(120, 3)] [] = ([(120, 3)], []) := by decide

/-- Claim C5 (failing input for Scenario B): the time+attribute rule at
threshold 0 on two error rows in hour bucket 3600 with attributes `app1`
and `app2`, followed by the end-of-stream flush, emits zero alerts in both
calls: the batch call buffers both (bucket, attribute) windows and the
flush call re-buffers them, where the scenario expects two alerts. -/
theorem scenarioB_emits_no_alerts :
    checkAttr 0 "Error" 3600 [] scenarioB =
      ([((3600, "app1"), 1), ((3600, "app2"), 1)], []) ∧
    checkAttr 0 "Error" 3600 [((3600, "app1"), 1), ((3600, "app2"), 1)] [] =
      ([((3600, "app1"), 1), ((3600, "app2"), 1)], []) :=
  ⟨by decide, by decide⟩

/-- Claim C10: calling `check` with an empty batch while the pending buffer
is non-empty with all keys in one bucket returns no alerts and leaves the
buffer with exactly the same contents, for both rule variants; repeated
empty-batch calls therefore never surface the last window. -/
theorem flush_fixpoint (threshold : Nat) (errorVal : String) (freq : Nat)
    (x : Nat × Nat) (rest : List (Nat × Nat))
    (y : (Nat × String) × Nat) (restA : List ((Nat × String) × Nat))
    (hbuf : ∀ p ∈ x :: rest, p.1 = x.1)
    (hbufA : ∀ p ∈ y :: restA, p.1.1 = y.1.1) :
    checkTime threshold errorVal freq (x :: rest) [] = (x :: rest, []) ∧
    checkAttr threshold errorVal freq (y :: restA) [] = (y :: restA, []) := by
  constructor
  · unfold checkTime
    rw [check_spec threshold errorVal (groupByTime freq) mergeBufferTime buildAlertTime
      (x :: rest) [] rfl]
    rw [show bufferArgOf (x :: rest) ([] : List Row) = [] from rfl]
    rw [show countsOf errorVal (groupByTime freq) (x :: rest) ([] : List Row) = x :: rest from
      rfl]
    rw [mergeBufferTime_of_const [] (x :: rest) x rest rfl hbuf]
    rfl
  · unfold checkAttr
    rw [check_spec threshold errorVal (groupByTimeAttr freq) mergeBufferAttr buildAlertAttr
      (y :: restA) [] rfl]
    rw [show bufferArgOf (y :: restA) ([] : List Row) = [] from rfl]
    rw [show countsOf errorVal (groupByTimeAttr freq) (y :: restA) ([] : List Row) = y :: restA
      from rfl]
    rw [mergeBufferAttr_of_const [] (y :: restA) y restA rfl hbufA]
    rfl

/-- Claim C10 witness: a concrete single-bucket buffer passes through an
empty-batch call of each variant unchanged, with no alerts. -/
theorem flush_fixpoint_witness :
    checkTime 5 "Error" 60 [(240, 7), (240, 1)] [] = ([(240, 7), (240, 1)], []) ∧
    checkAttr 5 "Error" 3600 [((3600, "a"), 2)] [] = ([((3600, "a"), 2)], []) :=
  flush_fixpoint 5 "Error" 60 (240, 7) [(240, 1)] ((3600, "a"), 2) []
    (by decide) (by decide)

/-- Claim C6: a non-empty batch with no row at the error severity produces
no alerts and leaves the (empty or single-bucket) pending buffer
unchanged. -/
theorem empty_filtered_noop (threshold : Nat) (errorVal : String) (freq : Nat)
    (buffer : List (Nat × Nat)) (batch : List Row)
    (hne : batch ≠ [])
    (hnoerr : ∀ r ∈ batch, r.level ≠ errorVal)
    (hbuf : ∀ p ∈ buffer, ∀ q ∈ buffer, p.1 = q.1) :
    checkTime threshold errorVal freq buffer batch = (buffer, []) := by
  have hb : batch.isEmpty = false := isEmpty_eq_false_of_ne hne
  have hcond : (batch.isEmpty && buffer.isEmpty) = false := by rw [hb]; rfl
  have hf : errorFilter errorVal batch = [] := by
    unfold errorFilter
    refine List.filter_eq_nil_iff.mpr ?_
    intro r hr
    simpa using hnoerr r hr
  have hcounts : countsOf errorVal (groupByTime freq) buffer batch = [] := by
    unfold countsOf
    rw [hb, hf]
    rfl
  have hbufArg : bufferArgOf buffer batch = buffer := by
    unfold bufferArgOf
    rw [hb]
    rfl
  unfold checkTime
  rw [check_spec _ _ _ _ _ _ _ hcond, hbufArg, hcounts]
  cases buffer with
  | nil => rfl
  | cons x t =>
    rw [mergeBufferTime_of_const (x :: t) [] x t (mergedTime_counts_nil _)
      (fun p hp => hbuf p hp x (List.mem_cons_self x t))]
    rfl

/-- Claim C6 witness: a buffered minute bucket survives a batch holding a
single non-error row, with no alerts. -/
theorem empty_filtered_noop_witness :
    checkTime 10 "Error" 60 [(60, 2)] demoNoErrorBatch = ([(60, 2)], []) :=
  empty_filtered_noop 10 "Error" 60 [(60, 2)] demoNoErrorBatch
    (by decide) (by decide) (by decide)

/-- Claim C2: for every `check` call of the time rule and every bucket `k`,
an alert timestamped `k` is emitted iff some finalized window `(k, c)` of
that call has `c` strictly above the threshold; a window whose count equals
the threshold produces no alert. -/
theorem threshold_boundary (threshold : Nat) (errorVal : String) (freq : Nat)
    (buffer : List (Nat × Nat)) (batch : List Row) (k : Nat) :
    (∃ a ∈ (checkTime threshold errorVal freq buffer batch).2, a.timestamp = k) ↔
    ∃ c, (k, c) ∈ finalizedOfTime errorVal freq buffer batch ∧ threshold < c := by
  by_cases h : (batch.isEmpty && buffer.isEmpty) = true
  · have h2 : checkTime threshold errorVal freq buffer batch = (buffer, []) := by
      unfold checkTime
      exact check_nil _ _ _ _ _ _ _ h
    have h3 : finalizedOfTime errorVal freq buffer batch = [] := by
      unfold finalizedOfTime
      rw [if_pos h]
    rw [h2, h3]
    simp
  · have hcond : (batch.isEmpty && buffer.isEmpty) = false := by
      revert h
      cases batch.isEmpty && buffer.isEmpty <;> simp
    have h2 : (checkTime threshold errorVal freq buffer batch).2 =
        alertsFrom threshold buildAlertTime
          (mergeBufferTime (bufferArgOf buffer batch)
            (countsOf errorVal (groupByTime freq) buffer batch)).2 := by
      unfold checkTime
      rw [check_spec _ _ _ _ _ _ _ hcond]
    have h3 : finalizedOfTime errorVal freq buffer batch =
        (mergeBufferTime (bufferArgOf buffer batch)
          (countsOf errorVal (groupByTime freq) buffer batch)).2 := by
      unfold finalizedOfTime
      rw [if_neg (by simp [hcond])]
    rw [h2, h3]
    exact mem_alertsFrom_time threshold _ k

/-- Claim C3: in a `check` call on a batch containing an error row, no
finalized window carries the largest bucket of the merged counts; the
entries at that bucket are instead retained in the new pending buffer. -/
theorem holdback_invariant (threshold : Nat) (errorVal : String) (freq : Nat)
    (buffer : List (Nat × Nat)) (batch : List Row) (last : Nat)
    (hbatch : ∃ r ∈ batch, r.level = errorVal)
    (hmax : listMax ((mergedOfTime errorVal freq buffer batch).map Prod.fst) = some last) :
    (∀ p ∈ finalizedOfTime errorVal freq buffer batch, p.1 ≠ last) ∧
    (∀ p ∈ mergedOfTime errorVal freq buffer batch, p.1 = last →
      p ∈ (checkTime threshold errorVal freq buffer batch).1) := by
  obtain ⟨r, hr, -⟩ := hbatch
  have hne : batch ≠ [] := fun hnil => List.not_mem_nil r (hnil ▸ hr)
  have hb : batch.isEmpty = false := isEmpty_eq_false_of_ne hne
  have hcond : (batch.isEmpty && buffer.isEmpty) = false := by rw [hb]; rfl
  unfold mergedOfTime at hmax
  have hsplit := mergeBufferTime_eq _ _ last hmax
  constructor
  · intro p hp
    unfold finalizedOfTime at hp
    rw [if_neg (by simp [hcond]), hsplit] at hp
    have hp2 : p ∈ List.filter (fun q => decide (q.1 < last))
        (mergedTime (bufferArgOf buffer batch)
          (countsOf errorVal (groupByTime freq) buffer batch)) := hp
    rw [List.mem_filter] at hp2
    exact Nat.ne_of_lt (of_decide_eq_true hp2.2)
  · intro p hp hpl
    unfold checkTime
    rw [check_spec _ _ _ _ _ _ _ hcond, hsplit]
    show p ∈ List.filter _ _
    exact List.mem_filter.mpr ⟨hp, decide_eq_true hpl⟩

/-- Claim C3 witness: for the two-bucket batch `demoBatch` with largest
bucket 60, the window (60, 1) is not finalized and is re-buffered. -/
theorem holdback_invariant_witness :
    ((60 : Nat), (1 : Nat)) ∉ finalizedOfTime "Error" 60 [] demoBatch ∧
    ((60 : Nat), (1 : Nat)) ∈ (checkTime 0 "Error" 60 [] demoBatch).1 := by
  have h := holdback_invariant 0 "Error" 60 [] demoBatch 60 (by decide) (by decide)
  exact ⟨fun hm => h.1 (60, 1) hm rfl, h.2 (60, 1) (by decide) rfl⟩

/-- Claim C4: in either variant's merge step with a non-empty buffer, when
the buffer's bucket equals the minimum bucket of the new counts the merged
value at every key is the arithmetic sum of the two series (missing keys
count 0); when it differs, the merged series is the buffer entries followed
by the new entries, both numerically unmodified. -/
theorem merge_correctness (b c : Nat) (rest counts : List (Nat × Nat))
    (bh : Nat) (bs : String) (cA : Nat) (restA countsA : List ((Nat × String) × Nat)) :
    ((listMin (counts.map Prod.fst) = some b →
        ∀ k, lookup0 (mergedTime ((b, c) :: rest) counts) k =
          lookup0 counts k + lookup0 ((b, c) :: rest) k) ∧
      (listMin (counts.map Prod.fst) ≠ some b →
        mergedTime ((b, c) :: rest) counts = ((b, c) :: rest) ++ counts)) ∧
    ((listMin (countsA.map (fun p => p.1.1)) = some bh →
        ∀ k, lookup0 (mergedAttr (((bh, bs), cA) :: restA) countsA) k =
          lookup0 countsA k + lookup0 (((bh, bs), cA) :: restA) k) ∧
      (listMin (countsA.map (fun p => p.1.1)) ≠ some bh →
        mergedAttr (((bh, bs), cA) :: restA) countsA =
          (((bh, bs), cA) :: restA) ++ countsA)) := by
  refine ⟨⟨?_, ?_⟩, ?_, ?_⟩
  · intro hmin k
    rw [mergedTime_cons_min_eq b c rest counts hmin]
    exact lookup0_addFill id counts ((b, c) :: rest) k
  · exact mergedTime_cons_min_ne b c rest counts
  · intro hmin k
    rw [mergedAttr_cons_min_eq bh bs cA restA countsA hmin]
    exact lookup0_addFill Prod.fst countsA (((bh, bs), cA) :: restA) k
  · exact mergedAttr_cons_min_ne bh bs cA restA countsA

/-- Claim C4 witness: concrete merges of both variants, one per branch of
the claim. -/
theorem merge_correctness_witness :
    lookup0 (mergedTime [(5, 2)] [(5, 3), (7, 1)]) 5 =
      lookup0 [(5, 3), (7, 1)] 5 + lookup0 [(5, 2)] 5 ∧
    mergedTime [(3, 2)] [(5, 3)] = [(3, 2)] ++ [(5, 3)] ∧
    lookup0 (mergedAttr [((5, "a"), 2)] [((5, "a"), 3)]) (5, "a") =
      lookup0 [((5, "a"), 3)] (5, "a") + lookup0 [((5, "a"), 2)] (5, "a") ∧
    mergedAttr [((3, "a"), 2)] [((5, "b"), 3)] = [((3, "a"), 2)] ++ [((5, "b"), 3)] := by
  refine ⟨?_, ?_, ?_, ?_⟩
  · exact (merge_correctness 5 2 [] [(5, 3), (7, 1)] 5 "a" 2 [] []).1.1 (by decide) 5
  · exact (merge_correctness 3 2 [] [(5, 3)] 5 "a" 2 [] []).1.2 (by decide)
  · exact (merge_correctness 5 2 [] [] 5 "a" 2 [] [((5, "a"), 3)]).2.1 (by decide) (5, "a")
  · exact (merge_correctness 3 2 [] [] 3 "a" 2 [] [((5, "b"), 3)]).2.2 (by decide)

/-- Claim C7: the attribute variant's re-buffering keys off the bucket
component only: a merged (bucket, attribute) entry goes to the new buffer
iff its bucket equals the maximum merged bucket, and to the finalized set
iff its bucket is strictly smaller. -/
theorem attr_buffering_by_bucket (buffer counts : List ((Nat × String) × Nat)) (last : Nat)
    (hmax : listMax ((mergedAttr buffer counts).map (fun p => p.1.1)) = some last) :
    ∀ p ∈ mergedAttr buffer counts,
      (p ∈ (mergeBufferAttr buffer counts).1 ↔ p.1.1 = last) ∧
      (p ∈ (mergeBufferAttr buffer counts).2 ↔ p.1.1 < last) := by
  intro p hp
  rw [mergeBufferAttr_eq buffer counts last hmax]
  constructor
  · show p ∈ List.filter _ _ ↔ _
    rw [List.mem_filter]
    simp [hp]
  · show p ∈ List.filter _ _ ↔ _
    rw [List.mem_filter]
    simp [hp]

/-- Claim C7 witness: with two attribute values tied at the latest bucket 2,
the tied entry goes to the buffer and the earlier-bucket entry is
finalized. -/
theorem attr_buffering_by_bucket_witness :
    (((2 : Nat), "b"), (2 : Nat)) ∈ (mergeBufferAttr [] demoCountsAttr).1 ∧
    (((1 : Nat), "a"), (1 : Nat)) ∈ (mergeBufferAttr [] demoCountsAttr).2 := by
  have h := attr_buffering_by_bucket [] demoCountsAttr 2 (by decide)
  exact ⟨(h ((2, "b"), 2) (by decide)).1.mpr rfl,
    (h ((1, "a"), 1) (by decide)).2.mpr (by decide)⟩

/-- Claim C9: after any `check` call of either variant, the pending buffer
is empty or all of its keys share one bucket component, namely the maximum
bucket of the counts merged in that call. -/
theorem buffer_single_window (threshold : Nat) (errorVal : String) (freq : Nat)
    (buffer : List (Nat × Nat)) (bufferA : List ((Nat × String) × Nat)) (batch : List Row) :
    ((checkTime threshold errorVal freq buffer batch).1 = [] ∨
      ∃ m, listMax ((mergedOfTime errorVal freq buffer batch).map Prod.fst) = some m ∧
        ∀ p ∈ (checkTime threshold errorVal freq buffer batch).1, p.1 = m) ∧
    ((checkAttr threshold errorVal freq bufferA batch).1 = [] ∨
      ∃ m, listMax ((mergedOfAttr errorVal freq bufferA batch).map (fun p => p.1.1)) = some m ∧
        ∀ p ∈ (checkAttr threshold errorVal freq bufferA batch).1, p.1.1 = m) := by
  constructor
  · by_cases hc : (batch.isEmpty && buffer.isEmpty) = true
    · left
      have hb2 : buffer.isEmpty = true := by
        revert hc
        cases batch.isEmpty <;> cases hbe : buffer.isEmpty <;> simp
      unfold checkTime
      rw [check_nil _ _ _ _ _ _ _ hc]
      exact eq_nil_of_isEmpty hb2
    · have hcond : (batch.isEmpty && buffer.isEmpty) = false := by
        revert hc
        cases batch.isEmpty && buffer.isEmpty <;> simp
      unfold checkTime mergedOfTime
      rw [check_spec _ _ _ _ _ _ _ hcond]
      cases hm : listMax ((mergedTime (bufferArgOf buffer batch)
          (countsOf errorVal (groupByTime freq) buffer batch)).map Prod.fst) with
      | none =>
        left
        show (mergeBufferTime _ _).1 = []
        unfold mergeBufferTime
        rw [hm]
      | some m =>
        right
        exact ⟨m, rfl, fun p hp => mergeBufferTime_fst_bucket _ _ m hm p hp⟩
  · by_cases hc : (batch.isEmpty && bufferA.isEmpty) = true
    · left
      have hb2 : bufferA.isEmpty = true := by
        revert hc
        cases batch.isEmpty <;> cases hbe : bufferA.isEmpty <;> simp
      unfold checkAttr
      rw [check_nil _ _ _ _ _ _ _ hc]
      exact eq_nil_of_isEmpty hb2
    · have hcond : (batch.isEmpty && bufferA.isEmpty) = false := by
        revert hc
        cases batch.isEmpty && bufferA.isEmpty <;> simp
      unfold checkAttr mergedOfAttr
      rw [check_spec _ _ _ _ _ _ _ hcond]
      cases hm : listMax ((mergedAttr (bufferArgOf bufferA batch)
          (countsOf errorVal (groupByTimeAttr freq) bufferA batch)).map (fun p => p.1.1)) with
      | none =>
        left
        show (mergeBufferAttr _ _).1 = []
        unfold mergeBufferAttr
        rw [hm]
      | some m =>
        right
        exact ⟨m, rfl, fun p hp => mergeBufferAttr_fst_bucket _ _ m hm p hp⟩

end BDT
